import Mathlib

/-!
A shallow embedding of `pytype/load_pytd.py`: the module loader/linker for
pytype's .pyi interface descriptions.  The embedding follows the source file
function by function:

* `Module`, `Loader` mirror the classes of the same names.
* The declaration-tree substrate (pytd nodes and visitors) is an external
  collaborator of the loader; it is embedded at the granularity the loader
  observes: an `Ast` is a module name, the set of class names it defines, and
  its reference nodes (`ClassType`/`NamedType` nodes awaiting a `cls` pointer).
  A reference node carries the module it refers into (`none` for an
  intra-module or builtin reference), the class name, and whether its `cls`
  pointer has been filled in.  Binding by shared pointer in the source means a
  bound reference stays bound when the target module is completed later; the
  embedding therefore only records boundness, which is monotone.
* Python's exception control flow is embedded as `Except`: every stateful
  operation returns `(Except LoadError α) × Loader`, the loader state being
  returned also on the error path (Python mutations survive a raise).
* The recursive load protocol is embedded with a fuel parameter; running out
  of fuel produces the distinguished `LoadError.fuelExhausted`, which the
  source can never produce.  Theorems hold for every sufficiently large fuel.
* Filesystem, parser, bundled-definition store and typeshed store are the
  loader's collaborators; they are abstracted as an `Env` of pure functions.
-/

namespace LoadPytd

/-- A reference node: a `ClassType`/`NamedType` tree node naming a class,
`module = none` for a plain (intra-module or builtin) name, and whether its
`cls` pointer has been filled in (bound to a concrete definition). -/
structure Ref where
  module : Option String
  name : String
  resolved : Bool
deriving DecidableEq

/-- A declaration tree (`pytd.TypeDeclUnit`) as the loader observes it:
the unit name, the class names it defines, and its reference nodes. -/
structure Ast where
  name : String
  classes : List String
  refs : List Ref
deriving DecidableEq

/-- Mirrors `class Module`: name, filename (unique source identifier),
parsed tree, and the dirty flag (set in `Module.__init__`, cleared only by
`_lookup_all_classes`). -/
structure Module where
  module_name : String
  filename : String
  ast : Ast
  dirty : Bool
deriving DecidableEq

/-- The error taxonomy crossing the loader's boundary.
`dependencyNotFound` mirrors `DependencyNotFoundError`; `registrationConflict`
mirrors the `AssertionError` of `_load_file` for a name already registered
under a different filename; `usageError` mirrors the `ValueError` /
`assert` of the relative-import entry points; `invariantViolation` mirrors a
failure of `VerifyLookup`/`VerifyContainers`; `fuelExhausted` is an artifact
of the fuel embedding and corresponds to no source behaviour. -/
inductive LoadError where
  | dependencyNotFound (module_name : String)
  | registrationConflict (module_name : String)
  | usageError
  | invariantViolation
  | fuelExhausted
deriving DecidableEq

deriving instance DecidableEq for Except

/-- The slice of `config.Options` the loader reads. -/
structure Options where
  python_version : Nat × Nat
  pythonpath : List String
  imports_map : Option (List (String × String))
  typeshed : Bool
deriving DecidableEq

/-- The loader's collaborators: the bundled predefined-definition store
(`builtins.ParsePredefinedPyTD`), the typeshed store
(`typeshed.parse_type_definition`), the parser (`builtins.ParsePyTD`,
filename/module/version), and the filesystem probes used by
`_import_file`/`_load_pyi`. -/
structure Env where
  predefined : String → String → Nat × Nat → Option Ast
  typeshedDef : String → String → Nat × Nat → Option Ast
  parsePyTD : String → String → Nat × Nat → Ast
  fsExists : String → Bool
  fsIsdir : String → Bool

/-- Mirrors `class Loader`: base module, options, the bootstrap builtins and
typing trees, the registry `_modules` (an insertion-ordered map, embedded as
an association list), and the `_concatenated` cache. -/
structure Loader where
  base_module : Option String
  options : Options
  builtins : Ast
  typing : Ast
  modules : List (String × Module)
  concatenated : Option Ast
deriving DecidableEq

/-- Association-list lookup, embedding Python dict lookup. -/
def alookup {β : Type} : List (String × β) → String → Option β
  | [], _ => none
  | (k', v) :: t, k => if k = k' then some v else alookup t k

/-- Association-list update, embedding Python dict assignment: replace the
entry in place if the key is present, append otherwise. -/
def setMod {β : Type} : List (String × β) → String → β → List (String × β)
  | [], k, m => [(k, m)]
  | p :: t, k, m => if p.1 = k then (k, m) :: t else p :: setMod t k m

/-- Association-list removal, embedding `del self._modules[module_name]`. -/
def delMod {β : Type} : List (String × β) → String → List (String × β)
  | [], _ => []
  | p :: t, k => if p.1 = k then delMod t k else p :: delMod t k

/-- `os.sep in module_name` (the sanity assert of `_import_name`). -/
def hasSep (s : String) : Bool := s.data.any (fun c => c = '/')

/-- Python `str.split(".")` (note `"".split(".") == [""]`). -/
def splitDotsAux : List Char → List Char → List String
  | [], acc => [String.mk acc.reverse]
  | c :: cs, acc =>
    if c = '.' then String.mk acc.reverse :: splitDotsAux cs []
    else splitDotsAux cs (c :: acc)

/-- Python `module_name.split(".")`. -/
def splitDots (s : String) : List String := splitDotsAux s.data []

/-- Python `".".join(parts)`. -/
def joinDots : List String → String
  | [] => ""
  | [s] => s
  | s :: ss => s ++ "." ++ joinDots ss

/-- `os.path.join` for the relative paths the loader builds. -/
def pathJoin (a b : String) : String := if a = "" then b else a ++ "/" ++ b

/-- `os.path.join(searchdir, *module_name_split)`. -/
def pathJoinAll (d : String) (parts : List String) : String :=
  parts.foldl pathJoin d

/-- `visitors.CollectDependencies`: the module names referenced by the tree's
reference nodes.  (The source collects them into a set; the embedding keeps
first-occurrence order and possible duplicates, which is observationally
equal in `_load_and_resolve_ast_dependencies`: a name already registered —
in particular one just loaded by an earlier iteration — is skipped.) -/
def collectDependencies (ast : Ast) : List String :=
  ast.refs.filterMap Ref.module

/-- `visitors.LookupBuiltins`: bind plain references naming a builtins class
against the bootstrap builtins tree. -/
def LookupBuiltins (b : Ast) (ast : Ast) : Ast :=
  { ast with refs := ast.refs.map (fun r =>
      if r.module = none ∧ r.name ∈ b.classes then { r with resolved := true }
      else r) }

/-- `visitors.LookupExternalTypes(module_map, full_names=True, self_name)`:
bind every cross-module reference (module different from `self_name`) whose
target class exists in the mapped module.  (On a class missing from a present
module the source visitor raises; the embedding leaves the reference unbound,
which the `VerifyLookup` pass of phase 2 reports as an invariant violation —
the distinction is not observable by any claim below.) -/
def LookupExternalTypes (module_map : List (String × Ast)) (self_name : Option String)
    (ast : Ast) : Ast :=
  { ast with refs := ast.refs.map (fun r =>
      match r.module with
      | none => r
      | some m =>
        if some m = self_name then r
        else
          match alookup module_map m with
          | some t => if r.name ∈ t.classes then { r with resolved := true } else r
          | none => r) }

/-- `visitors.FillInModuleClasses(module_map)`: fill the `cls` pointer of
every reference whose (possibly empty) module prefix is a key of the map and
whose class name is found there; silently skip the rest. -/
def FillInModuleClasses (module_map : List (String × Ast)) (ast : Ast) : Ast :=
  { ast with refs := ast.refs.map (fun r =>
      match alookup module_map (r.module.getD "") with
      | some t => if r.name ∈ t.classes then { r with resolved := true } else r
      | none => r) }

/-- `visitors.VerifyLookup`: no reference node remains unbound. -/
def VerifyLookup (ast : Ast) : Bool := ast.refs.all (·.resolved)

/-- `visitors.VerifyContainers`: arity/containment checks on parametrized
usages.  The embedding's trees carry no parametrized nodes, so the check is
vacuous here. -/
def VerifyContainers (_ast : Ast) : Bool := true

/-- `visitors.InsertSignatureTemplates`: template synthesis acts only on
signature/template nodes, which the embedding's trees do not carry. -/
def InsertSignatureTemplates (ast : Ast) : Ast := ast

/-- `pytd_utils.AdjustTemplates(lookup)`: template adjustment likewise acts
only on template nodes. -/
def AdjustTemplates (_lookup : Ast) (ast : Ast) : Ast := ast

/-- `pytd_utils.EmptyModule(module_name)`. -/
def EmptyModule (module_name : String) : Ast := ⟨module_name, [], []⟩

/-- `pytd_utils.Concat(*asts, name="<all>")`. -/
def Concat (asts : List Ast) (unit_name : String) : Ast :=
  ⟨unit_name, (asts.map (·.classes)).flatten, (asts.map (·.refs)).flatten⟩

/-- `Loader._postprocess_pyi`: the fixed postprocessing pipeline.
`ConvertTypingToNative` and `SimplifyOptionalParameters` rewrite node kinds
(generic-type encodings, optional parameters) that the embedding's trees do
not carry; `NamedTypeToClassType` turns named-type mentions into reference
nodes, which is the form `Ast.refs` is already in.  The pass observable at
this granularity is `LookupBuiltins`. -/
def postprocess_pyi (L : Loader) (ast : Ast) : Ast :=
  LookupBuiltins L.builtins ast

/-- `Loader._finish_ast`: full reference-binding pass over the entire
registry (plus the tree itself under the key `""`), then verification. -/
def finish_ast (L : Loader) (ast : Ast) : Except LoadError Ast :=
  let module_map := ("", ast) :: L.modules.map (fun p => (p.1, p.2.ast))
  let ast2 := FillInModuleClasses module_map ast
  if VerifyLookup ast2 ∧ VerifyContainers ast2 then .ok ast2
  else .error .invariantViolation

/-- The loop body of `Loader._lookup_all_classes` over a snapshot of the
registry keys: finish every still-dirty module and clear its dirty flag. -/
def sweepKeys : List String → Loader → (Except LoadError Unit) × Loader
  | [], L => (.ok (), L)
  | k :: ks, L =>
    match alookup L.modules k with
    | none => sweepKeys ks L
    | some m =>
      if m.dirty then
        match finish_ast L m.ast with
        | .error e => (.error e, L)
        | .ok ast2 =>
          sweepKeys ks
            { L with modules := setMod L.modules k { m with ast := ast2, dirty := false } }
      else sweepKeys ks L

/-- `Loader._lookup_all_classes`: the lazy registry-wide completion sweep. -/
def lookup_all_classes (L : Loader) : (Except LoadError Unit) × Loader :=
  sweepKeys (L.modules.map (·.1)) L

mutual

/-- `Loader._load_file(module_name, filename, ast=None)`: invalidate the
concatenation cache, return the cached tree on a name hit (asserting the
filename matches), otherwise parse (if no tree was passed in), postprocess,
register the module *before* resolving its dependencies, run phase 1 of the
linking protocol, and on any error evict the just-registered entry before
propagating. -/
def load_file (env : Env) : Nat → Loader → String → String → Option Ast →
    (Except LoadError Ast) × Loader
  | 0, L, _, _, _ => (.error .fuelExhausted, L)
  | fuel+1, L, module_name, filename, ast? =>
    let L0 : Loader := { L with concatenated := none }
    match alookup L0.modules module_name with
    | some existing =>
      if existing.filename = filename then (.ok existing.ast, L0)
      else (.error (.registrationConflict module_name), L0)
    | none =>
      let ast0 := match ast? with
        | some a => a
        | none => env.parsePyTD filename module_name L0.options.python_version
      let ast1 := postprocess_pyi L0 ast0
      let L1 : Loader :=
        { L0 with modules := setMod L0.modules module_name ⟨module_name, filename, ast1, true⟩ }
      match load_and_resolve_ast_dependencies env fuel L1 ast1 (some module_name) with
      | (.error e, L2) =>
        (.error e, { L2 with modules := delMod L2.modules module_name })
      | (.ok ast2, L2) =>
        let ast3 := InsertSignatureTemplates ast2
        let ast4 := AdjustTemplates ast3 ast3
        let ast5 := FillInModuleClasses [("", ast1), (module_name, ast1)] ast4
        (.ok ast5,
         { L2 with modules := setMod L2.modules module_name ⟨module_name, filename, ast5, true⟩ })

/-- `Loader._create_empty(module_name, filename)`. -/
def create_empty (env : Env) : Nat → Loader → String → String →
    (Except LoadError Ast) × Loader
  | 0, L, _, _ => (.error .fuelExhausted, L)
  | fuel+1, L, module_name, filename =>
    load_file env fuel L module_name filename (some (EmptyModule module_name))

/-- `Loader._load_and_resolve_ast_dependencies(ast, ast_name)`: collect the
referenced module names, recursively import each one not yet registered
(raising `DependencyNotFound` if it cannot be located), then bind every
cross-module reference against the registry. -/
def load_and_resolve_ast_dependencies (env : Env) : Nat → Loader → Ast → Option String →
    (Except LoadError Ast) × Loader
  | 0, L, _, _ => (.error .fuelExhausted, L)
  | fuel+1, L, ast, ast_name =>
    let deps := collectDependencies ast
    if deps.isEmpty then (.ok ast, L)
    else
      match loadDeps env fuel L deps with
      | (.error e, L1) => (.error e, L1)
      | (.ok _, L1) =>
        let module_map := L1.modules.map (fun p => (p.1, p.2.ast))
        (.ok (LookupExternalTypes module_map ast_name ast), L1)

/-- The dependency loop of `_load_and_resolve_ast_dependencies`:
`for name in deps.modules: if name not in self._modules: ...`. -/
def loadDeps (env : Env) : Nat → Loader → List String →
    (Except LoadError Unit) × Loader
  | _, L, [] => (.ok (), L)
  | 0, L, _ :: _ => (.error .fuelExhausted, L)
  | fuel+1, L, name :: rest =>
    if (alookup L.modules name).isSome then loadDeps env fuel L rest
    else
      match import_name_inner env fuel L name with
      | (.error e, L1) => (.error e, L1)
      | (.ok none, L1) => (.error (.dependencyNotFound name), L1)
      | (.ok (some _), L1) => loadDeps env fuel L1 rest

/-- `Loader._import_name(module_name)`: the three search tiers in order —
bundled builtins definitions, the pythonpath scan, the stdlib definitions —
first hit wins; exhaustion yields `none` (not an error at this level). -/
def import_name_inner (env : Env) : Nat → Loader → String →
    (Except LoadError (Option Ast)) × Loader
  | 0, L, _ => (.error .fuelExhausted, L)
  | fuel+1, L, module_name =>
    if hasSep module_name then (.error .usageError, L)
    else
      match load_builtin env fuel L "builtins" module_name with
      | (.error e, L1) => (.error e, L1)
      | (.ok (some mod), L1) => (.ok (some mod), L1)
      | (.ok none, L1) =>
        match import_file env fuel L1 module_name (splitDots module_name) L1.options.pythonpath with
        | (.error e, L2) => (.error e, L2)
        | (.ok (some a), L2) => (.ok (some a), L2)
        | (.ok none, L2) => load_builtin env fuel L2 "stdlib" module_name

/-- `Loader._load_builtin(subdir, module_name)`: pytype's own predefined
definitions for the given tier, falling back to the typeshed store only when
`options.typeshed` is set; a located tree is loaded under the reserved
`"pytd:"`-prefixed filename. -/
def load_builtin (env : Env) : Nat → Loader → String → String →
    (Except LoadError (Option Ast)) × Loader
  | 0, L, _, _ => (.error .fuelExhausted, L)
  | fuel+1, L, subdir, module_name =>
    let mod0 := env.predefined subdir module_name L.options.python_version
    let mod := match mod0 with
      | some m => some m
      | none =>
        if L.options.typeshed then env.typeshedDef subdir module_name L.options.python_version
        else none
    match mod with
    | some m =>
      match load_file env fuel L module_name ("pytd:" ++ module_name) (some m) with
      | (.error e, L1) => (.error e, L1)
      | (.ok a, L1) => (.ok (some a), L1)
    | none => (.ok none, L)

/-- `Loader._import_file(module_name, module_name_split)`: scan the
pythonpath directories in order; per directory prefer a package
(`<path>/__init__`), else a marker-less directory becomes an implicit empty
package, else a plain module file; on no hit continue with the next
directory. -/
def import_file (env : Env) : Nat → Loader → String → List String → List String →
    (Except LoadError (Option Ast)) × Loader
  | _, L, _, _, [] => (.ok none, L)
  | 0, L, _, _, _ :: _ => (.error .fuelExhausted, L)
  | fuel+1, L, module_name, module_name_split, searchdir :: rest =>
    let path := pathJoinAll searchdir module_name_split
    let init_path := pathJoin path "__init__"
    match load_pyi env fuel L init_path module_name with
    | (.error e, L1) => (.error e, L1)
    | (.ok (some init_ast), L1) => (.ok (some init_ast), L1)
    | (.ok none, L1) =>
      if env.fsIsdir path then
        match create_empty env fuel L1 module_name (pathJoin path "__init__.pyi") with
        | (.error e, L2) => (.error e, L2)
        | (.ok a, L2) => (.ok (some a), L2)
      else
        match load_pyi env fuel L1 path module_name with
        | (.error e, L2) => (.error e, L2)
        | (.ok (some file_ast), L2) => (.ok (some file_ast), L2)
        | (.ok none, L2) => import_file env fuel L2 module_name module_name_split rest

/-- `Loader._load_pyi(path, module_name)`: with an `imports_map` configured
the probed path resolves only through the map (its value may be `/dev/null`);
without one, probe `path + ".pyi"`.  The resolved location is loaded iff it
exists and is not a directory (`exists`/`isdir` rather than `isfile`, so
that `/dev/null` remap entries *are* loaded). -/
def load_pyi (env : Env) : Nat → Loader → String → String →
    (Except LoadError (Option Ast)) × Loader
  | 0, L, _, _ => (.error .fuelExhausted, L)
  | fuel+1, L, path, module_name =>
    let full_path? := match L.options.imports_map with
      | some im => alookup im path
      | none => some (path ++ ".pyi")
    match full_path? with
    | none => (.ok none, L)
    | some full_path =>
      if env.fsExists full_path = true ∧ env.fsIsdir full_path = false then
        match load_file env fuel L module_name full_path none with
        | (.error e, L1) => (.error e, L1)
        | (.ok a, L1) => (.ok (some a), L1)
      else (.ok none, L)

end

/-- `Loader.__init__(base_module, options)`: the registry is pre-populated
with the bootstrap `__builtin__` and `typing` modules obtained from
`builtins.GetBuiltinsAndTyping()`, under the reserved `pytd:` filenames;
both start dirty (as every `Module` does). -/
def initLoader (base_module : Option String) (options : Options)
    (builtins typing0 : Ast) : Loader :=
  { base_module := base_module
    options := options
    builtins := builtins
    typing := typing0
    modules :=
      [("__builtin__", ⟨"__builtin__", "pytd:" ++ "__builtin__", builtins, true⟩),
       ("typing", ⟨"typing", "pytd:" ++ "typing", typing0, true⟩)]
    concatenated := none }

/-- `Loader.import_name(module_name)`: resolve through `_import_name`, then
run the registry-wide completion sweep before returning. -/
def import_name (env : Env) (fuel : Nat) (L : Loader) (module_name : String) :
    (Except LoadError (Option Ast)) × Loader :=
  match import_name_inner env fuel L module_name with
  | (.error e, L1) => (.error e, L1)
  | (.ok r, L1) =>
    match lookup_all_classes L1 with
    | (.error e, L2) => (.error e, L2)
    | (.ok _, L2) => (.ok r, L2)

/-- `Loader.import_relative_name(name)`: a name relative to the current
directory (`IMPORT_NAME` with level -1). -/
def import_relative_name (env : Env) (fuel : Nat) (L : Loader) (name : String) :
    (Except LoadError (Option Ast)) × Loader :=
  match L.base_module with
  | none => (.error .usageError, L)
  | some base =>
    let path := (splitDots base).dropLast ++ [name]
    match import_name_inner env fuel L (joinDots path) with
    | (.error e, L1) => (.error e, L1)
    | (.ok r, L1) =>
      match lookup_all_classes L1 with
      | (.error e, L2) => (.error e, L2)
      | (.ok _, L2) => (.ok r, L2)

/-- `Loader.import_relative(level)`: `assert level >= 1` (embedded as the
usage error the spec's taxonomy assigns to an invalid level), require a
configured base module, drop the last `level` components of the base path
(`components[0:-level]`), and resolve the ancestor through `_import_name`
followed by the completion sweep. -/
def import_relative (env : Env) (fuel : Nat) (L : Loader) (level : Nat) :
    (Except LoadError (Option Ast)) × Loader :=
  if level < 1 then (.error .usageError, L)
  else
    match L.base_module with
    | none => (.error .usageError, L)
    | some base =>
      let components := splitDots base
      let sub_module := joinDots (components.take (components.length - level))
      match import_name_inner env fuel L sub_module with
      | (.error e, L1) => (.error e, L1)
      | (.ok r, L1) =>
        match lookup_all_classes L1 with
        | (.error e, L2) => (.error e, L2)
        | (.ok _, L2) => (.ok r, L2)

/-- `Loader.resolve_ast(ast)`: postprocess and link an ad-hoc tree without
registering it; the completion sweep still runs, then the tree itself is
finished against the full registry. -/
def resolve_ast (env : Env) (fuel : Nat) (L : Loader) (ast : Ast) :
    (Except LoadError Ast) × Loader :=
  let ast1 := postprocess_pyi L ast
  match load_and_resolve_ast_dependencies env fuel L ast1 none with
  | (.error e, L1) => (.error e, L1)
  | (.ok ast2, L1) =>
    match lookup_all_classes L1 with
    | (.error e, L2) => (.error e, L2)
    | (.ok _, L2) =>
      match finish_ast L2 ast2 with
      | .error e => (.error e, L2)
      | .ok ast3 => (.ok ast3, L2)

/-- `Loader.concat_all()`: the cached merged view. -/
def concat_all (L : Loader) : Ast × Loader :=
  match L.concatenated with
  | some c => (c, L)
  | none =>
    let c := Concat (L.modules.map (·.2.ast)) "<all>"
    (c, { L with concatenated := some c })

/-! ### Derived predicates -/

/-- Every reference node of the tree is bound. -/
def allResolved (a : Ast) : Bool := a.refs.all (·.resolved)

/-- The registry invariant relating the dirty flag to boundness: a module
whose dirty flag is cleared has every reference bound. -/
abbrev Inv (l : List (String × Module)) : Prop :=
  ∀ p ∈ l, p.2.dirty = false → allResolved p.2.ast = true

/-- Registry keys are unique. -/
abbrev NodupKeys (l : List (String × Module)) : Prop := (l.map Prod.fst).Nodup

/-- Every registered module is completed: dirty flag cleared and every
reference bound. -/
def Done (l : List (String × Module)) : Bool :=
  l.all (fun p => !p.2.dirty && allResolved p.2.ast)

/-- The ancestor package name `import_relative` computes: drop the last
`level` components of the base path. -/
def parentName (base : String) (level : Nat) : String :=
  joinDots ((splitDots base).take ((splitDots base).length - level))

/-! ### Concrete fixtures used by the claim theorems -/

/-- A bootstrap builtins tree: fully resolved, defines `object`. -/
def bAst : Ast := ⟨"__builtin__", ["object"], []⟩

/-- A bootstrap typing tree: fully resolved, defines nothing. -/
def tAst : Ast := ⟨"typing", [], []⟩

/-- Default options: version 2.7, empty pythonpath, no remap table, typeshed
disabled. -/
def defOpts : Options := ⟨(2, 7), [], none, false⟩

/-- The freshly constructed loader the concrete scenarios start from. -/
def initL : Loader := initLoader none defOpts bAst tAst

/-- An environment in which no tier locates anything. -/
def envNone : Env :=
  { predefined := fun _ _ _ => none
    typeshedDef := fun _ _ _ => none
    parsePyTD := fun _ m _ => ⟨m, [], []⟩
    fsExists := fun _ => false
    fsIsdir := fun _ => false }

/-- Module `a` of the cyclic pair: defines class `CA`, references `b.CB`. -/
def cycAstA (a b : String) : Ast := ⟨a, ["CA"], [⟨some b, "CB", false⟩]⟩

/-- Module `b` of the cyclic pair: defines class `CB`, references `a.CA`. -/
def cycAstB (a b : String) : Ast := ⟨b, ["CB"], [⟨some a, "CA", false⟩]⟩

/-- An environment whose bundled builtins tier serves exactly the two
mutually referencing modules `a` and `b`. -/
def cyclicEnv (a b : String) : Env :=
  { predefined := fun s n _ =>
      if s = "builtins" then
        (if n = a then some (cycAstA a b)
         else if n = b then some (cycAstB a b) else none)
      else none
    typeshedDef := fun _ _ _ => none
    parsePyTD := fun _ m _ => ⟨m, [], []⟩
    fsExists := fun _ => false
    fsIsdir := fun _ => false }

/-- An environment in which `M` references `D.X` and `E.Y`, `D` is available
(defining `X`), and `E` is nowhere to be found. -/
def envC2 : Env :=
  { predefined := fun s n _ =>
      if s = "builtins" then
        (if n = "M" then some ⟨"M", [], [⟨some "D", "X", false⟩, ⟨some "E", "Y", false⟩]⟩
         else if n = "D" then some ⟨"D", ["X"], []⟩ else none)
      else none
    typeshedDef := fun _ _ _ => none
    parsePyTD := fun _ m _ => ⟨m, [], []⟩
    fsExists := fun _ => false
    fsIsdir := fun _ => false }

/-- A loader whose registry binds name `x` to source identifier `foo`. -/
def regLx : Loader :=
  { initL with modules := initL.modules ++ [("x", ⟨"x", "foo", ⟨"x", [], []⟩, true⟩)] }

/-- A loader based in module `a.b.c`. -/
def LbaseABC : Loader := initLoader (some "a.b.c") defOpts bAst tAst

/-- Options with an explicit (empty) remap table configured; per the source's
invariant, `pythonpath` is then `[""]`. -/
def optsMap : Options := ⟨(2, 7), [""], some [], false⟩

/-- A filesystem on which `foo` is a directory, while the loader has an
explicit remap table with no keys. -/
def envC6 : Env :=
  { predefined := fun _ _ _ => none
    typeshedDef := fun _ _ _ => none
    parsePyTD := fun _ m _ => ⟨m, [], []⟩
    fsExists := fun _ => false
    fsIsdir := fun p => p = "foo" }

/-- The loader for the remap-table scenarios. -/
def L6 : Loader := initLoader none optsMap bAst tAst

/-- Options whose remap table maps the probed path `foo` to the discard
sentinel `/dev/null`. -/
def optsDevNull : Options := ⟨(2, 7), [""], some [("foo", "/dev/null")], false⟩

/-- A filesystem on which `/dev/null` exists and is not a directory, parsing
it yields an empty tree. -/
def envC7 : Env :=
  { predefined := fun _ _ _ => none
    typeshedDef := fun _ _ _ => none
    parsePyTD := fun _ m _ => ⟨m, [], []⟩
    fsExists := fun p => p = "/dev/null"
    fsIsdir := fun _ => false }

/-- The loader with the `/dev/null` remap entry. -/
def L7 : Loader := initLoader none optsDevNull bAst tAst

/-- An environment in which `x` lives only in pytype's own bundled *stdlib*
definitions (not builtins, not the filesystem, not typeshed). -/
def envC5stdlib : Env :=
  { predefined := fun s n _ =>
      if s = "stdlib" ∧ n = "x" then some ⟨"x", ["SX"], []⟩ else none
    typeshedDef := fun _ _ _ => none
    parsePyTD := fun _ m _ => ⟨m, [], []⟩
    fsExists := fun _ => false
    fsIsdir := fun _ => false }

/-- Follows the spec's words (§4.2, and the claim): resolution consults the
bundled tier, then the search path, then the standard-library fallback *only
if enabled*, first hit winning.  Used solely to exhibit where the code
diverges from this reading. -/
def specTierResolve (bundled searchPath stdlibFallback : Option Ast)
    (enabled : Bool) : Option Ast :=
  match bundled with
  | some t => some t
  | none =>
    match searchPath with
    | some t => some t
    | none => if enabled then stdlibFallback else none

/-- Options with one search-path directory. -/
def optsPath : Options := ⟨(2, 7), ["dir"], none, false⟩

/-- An environment in which the name `n` is present both in the bundled
builtins definitions (as a tree defining `FromBundled`) and on disk in the
search-path directory (parsing any file yields a tree defining `FromDisk`). -/
def envBoth (n : String) : Env :=
  { predefined := fun s m _ =>
      if s = "builtins" ∧ m = n then some ⟨n, ["FromBundled"], []⟩ else none
    typeshedDef := fun _ _ _ => none
    parsePyTD := fun _ m _ => ⟨m, ["FromDisk"], []⟩
    fsExists := fun _ => true
    fsIsdir := fun _ => false }

/-- The loader with one search-path directory. -/
def LPath : Loader := initLoader none optsPath bAst tAst

/-! ### Association-list lemmas -/

theorem alookup_setMod_self {β : Type} (l : List (String × β)) (k : String) (m : β) :
    alookup (setMod l k m) k = some m := by
  induction l with
  | nil => simp [setMod, alookup]
  | cons p t ih =>
    by_cases h : p.1 = k
    · simp [setMod, h, alookup]
    · simp [setMod, h, alookup, Ne.symm h, ih]

theorem alookup_setMod_ne {β : Type} (l : List (String × β)) (k k' : String) (m : β)
    (h : k' ≠ k) : alookup (setMod l k m) k' = alookup l k' := by
  induction l with
  | nil => simp [setMod, alookup, h]
  | cons p t ih =>
    by_cases hp : p.1 = k
    · subst hp
      simp [setMod, alookup, h, Ne.symm h]
    · by_cases hk : k' = p.1
      · simp [setMod, hp, alookup, hk]
      · simp [setMod, hp, alookup, hk, ih]

theorem alookup_delMod_self {β : Type} (l : List (String × β)) (k : String) :
    alookup (delMod l k) k = none := by
  induction l with
  | nil => simp [delMod, alookup]
  | cons p t ih =>
    by_cases h : p.1 = k
    · simp [delMod, h, ih]
    · simp [delMod, h, alookup, Ne.symm h, ih]

theorem alookup_delMod_ne {β : Type} (l : List (String × β)) (k k' : String)
    (h : k' ≠ k) : alookup (delMod l k) k' = alookup l k' := by
  induction l with
  | nil => simp [delMod]
  | cons p t ih =>
    by_cases hp : p.1 = k
    · subst hp
      simp [delMod, alookup, h, ih]
    · by_cases hk : k' = p.1
      · simp [delMod, hp, alookup, hk]
      · simp [delMod, hp, alookup, hk, ih]

theorem mem_setMod {β : Type} {l : List (String × β)} {k : String} {m : β}
    {p : String × β} (h : p ∈ setMod l k m) : p = (k, m) ∨ p ∈ l := by
  induction l with
  | nil => simpa [setMod] using h
  | cons q t ih =>
    by_cases hq : q.1 = k
    · simp only [setMod, if_pos hq, List.mem_cons] at h
      rcases h with h | h
      · exact .inl h
      · exact .inr (List.mem_cons_of_mem _ h)
    · simp only [setMod, if_neg hq, List.mem_cons] at h
      rcases h with h | h
      · exact .inr (h ▸ List.mem_cons_self _ _)
      · rcases ih h with h' | h'
        · exact .inl h'
        · exact .inr (List.mem_cons_of_mem _ h')

theorem mem_delMod {β : Type} {l : List (String × β)} {k : String}
    {p : String × β} (h : p ∈ delMod l k) : p ∈ l := by
  induction l with
  | nil => simp [delMod] at h
  | cons q t ih =>
    by_cases hq : q.1 = k
    · simp only [delMod, if_pos hq] at h
      exact List.mem_cons_of_mem _ (ih h)
    · simp only [delMod, if_neg hq, List.mem_cons] at h
      rcases h with h | h
      · exact h ▸ List.mem_cons_self _ _
      · exact List.mem_cons_of_mem _ (ih h)

theorem keys_setMod_subset {β : Type} {l : List (String × β)} {k : String} {m : β}
    {q : String} (h : q ∈ (setMod l k m).map Prod.fst) :
    q = k ∨ q ∈ l.map Prod.fst := by
  rcases List.mem_map.mp h with ⟨p, hp, rfl⟩
  rcases mem_setMod hp with h' | h'
  · exact .inl (by simp [h'])
  · exact .inr (List.mem_map_of_mem _ h')

theorem nodupKeys_setMod {β : Type} {l : List (String × β)} {k : String} {m : β}
    (h : (l.map Prod.fst).Nodup) : ((setMod l k m).map Prod.fst).Nodup := by
  induction l with
  | nil => simp [setMod]
  | cons q t ih =>
    simp only [List.map_cons, List.nodup_cons] at h
    by_cases hq : q.1 = k
    · subst hq
      simpa [setMod, List.nodup_cons] using h
    · simp only [setMod, if_neg hq, List.map_cons, List.nodup_cons]
      refine ⟨fun hmem => ?_, ih h.2⟩
      rcases keys_setMod_subset hmem with h' | h'
      · exact hq h'
      · exact h.1 h'

theorem nodupKeys_delMod {β : Type} {l : List (String × β)} {k : String}
    (h : (l.map Prod.fst).Nodup) : ((delMod l k).map Prod.fst).Nodup := by
  induction l with
  | nil => simp [delMod]
  | cons q t ih =>
    simp only [List.map_cons, List.nodup_cons] at h
    by_cases hq : q.1 = k
    · simpa [delMod, hq] using ih h.2
    · simp only [delMod, if_neg hq, List.map_cons, List.nodup_cons]
      exact ⟨fun hmem => h.1 (List.mem_map.mp hmem |>.elim fun p hp =>
        hp.2 ▸ List.mem_map_of_mem _ (mem_delMod hp.1)), ih h.2⟩

theorem alookup_eq_none_iff {β : Type} {l : List (String × β)} {k : String} :
    alookup l k = none ↔ ∀ p ∈ l, k ≠ p.1 := by
  induction l with
  | nil => simp [alookup]
  | cons q t ih =>
    by_cases hq : k = q.1
    · simp [alookup, hq]
    · simp [alookup, hq, ih]

theorem alookup_of_mem_nodup {β : Type} {l : List (String × β)}
    (hnd : (l.map Prod.fst).Nodup) {p : String × β} (hp : p ∈ l) :
    alookup l p.1 = some p.2 := by
  induction l with
  | nil => cases hp
  | cons q t ih =>
    simp only [List.map_cons, List.nodup_cons] at hnd
    rcases List.mem_cons.mp hp with rfl | hp'
    · simp [alookup]
    · have hne : p.1 ≠ q.1 := fun h =>
        hnd.1 (h ▸ List.mem_map_of_mem _ hp')
      simp [alookup, hne, ih hnd.2 hp']

theorem mem_setMod_nodup {β : Type} {l : List (String × β)} {k : String} {m : β}
    (hnd : (l.map Prod.fst).Nodup) {p : String × β} (h : p ∈ setMod l k m) :
    p = (k, m) ∨ (p ∈ l ∧ p.1 ≠ k) := by
  induction l with
  | nil => simpa [setMod] using h
  | cons q t ih =>
    simp only [List.map_cons, List.nodup_cons] at hnd
    by_cases hq : q.1 = k
    · simp only [setMod, if_pos hq, List.mem_cons] at h
      rcases h with h | h
      · exact .inl h
      · refine .inr ⟨List.mem_cons_of_mem _ h, fun hpk => ?_⟩
        exact hnd.1 ((hq.symm ▸ hpk : p.1 = q.1) ▸ List.mem_map_of_mem _ h)
    · simp only [setMod, if_neg hq, List.mem_cons] at h
      rcases h with h | h
      · exact .inr ⟨h ▸ List.mem_cons_self _ _, h ▸ hq⟩
      · rcases ih hnd.2 h with h' | h'
        · exact .inl h'
        · exact .inr ⟨List.mem_cons_of_mem _ h'.1, h'.2⟩

theorem snd_eq_of_eq {α β : Type} {x : α × β} {a : α} {b : β} (h : x = (a, b)) :
    x.2 = b := by rw [h]

/-- Any registry property preserved by dict assignment of a dirty module and
by eviction of a name that was absent at the start of the enclosing load is
preserved by every operation of the recursive load protocol.  (`hdel`'s first
argument is the registry at the start of the enclosing `_load_file` frame:
eviction only ever removes the name that frame itself registered.) -/
theorem preserveAll (env : Env) (P : List (String × Module) → Prop)
    (hset : ∀ l k m, P l → m.dirty = true → P (setMod l k m))
    (hdel : ∀ l l' k, P l → P l' → alookup l k = none → P (delMod l' k)) :
    ∀ fuel : Nat,
      (∀ L n f a?, P L.modules → P ((load_file env fuel L n f a?).2).modules) ∧
      (∀ L n f, P L.modules → P ((create_empty env fuel L n f).2).modules) ∧
      (∀ L a an, P L.modules →
        P ((load_and_resolve_ast_dependencies env fuel L a an).2).modules) ∧
      (∀ L ds, P L.modules → P ((loadDeps env fuel L ds).2).modules) ∧
      (∀ L n, P L.modules → P ((import_name_inner env fuel L n).2).modules) ∧
      (∀ L s n, P L.modules → P ((load_builtin env fuel L s n).2).modules) ∧
      (∀ L n sp dirs, P L.modules → P ((import_file env fuel L n sp dirs).2).modules) ∧
      (∀ L p n, P L.modules → P ((load_pyi env fuel L p n).2).modules) := by
  intro fuel
  induction fuel with
  | zero =>
    refine ⟨?_, ?_, ?_, ?_, ?_, ?_, ?_, ?_⟩
    · intro L n f a? hP; simpa [load_file] using hP
    · intro L n f hP; simpa [create_empty] using hP
    · intro L a an hP; simpa [load_and_resolve_ast_dependencies] using hP
    · intro L ds hP; cases ds <;> simpa [loadDeps] using hP
    · intro L n hP; simpa [import_name_inner] using hP
    · intro L s n hP; simpa [load_builtin] using hP
    · intro L n sp dirs hP; cases dirs <;> simpa [import_file] using hP
    · intro L p n hP; simpa [load_pyi] using hP
  | succ fuel ih =>
    obtain ⟨ihLF, ihCE, ihLAR, ihLD, ihIN, ihLB, ihIF, ihLP⟩ := ih
    refine ⟨?_, ?_, ?_, ?_, ?_, ?_, ?_, ?_⟩
    · -- load_file
      intro L n f a? hP
      rcases hex : alookup L.modules n with _ | existing
      · simp only [load_file, hex]
        split
      <;> rename_i heq
        · -- dependency resolution failed: the staged entry is evicted
          rename_i e L2
          refine hdel L.modules L2.modules n hP ?_ hex
          rw [← snd_eq_of_eq heq]
          exact ihLAR _ _ _ (hset _ _ _ hP rfl)
        · rename_i ast2 L2
          refine hset _ _ _ ?_ rfl
          rw [← snd_eq_of_eq heq]
          exact ihLAR _ _ _ (hset _ _ _ hP rfl)
      · by_cases hf : existing.filename = f <;> simp [load_file, hex, hf, hP]
    · -- create_empty
      intro L n f hP
      simp only [create_empty]
      exact ihLF _ _ _ _ hP
    · -- load_and_resolve_ast_dependencies
      intro L a an hP
      simp only [load_and_resolve_ast_dependencies]
      by_cases hd : (collectDependencies a).isEmpty
      · simp [hd, hP]
      · simp only [hd, Bool.false_eq_true, if_false]
        split <;> rename_i heq
        · rename_i e L1
          rw [← snd_eq_of_eq heq]
          exact ihLD _ _ hP
        · rename_i u L1
          rw [← snd_eq_of_eq heq]
          exact ihLD _ _ hP
    · -- loadDeps
      intro L ds hP
      cases ds with
      | nil => simpa [loadDeps] using hP
      | cons name rest =>
        by_cases hn : (alookup L.modules name).isSome
        · simp only [loadDeps, hn, if_true]
          exact ihLD _ _ hP
        · simp only [loadDeps, hn, Bool.false_eq_true, if_false]
          split <;> rename_i heq
          · rename_i e L1
            rw [← snd_eq_of_eq heq]
            exact ihIN _ _ hP
          · rename_i L1
            rw [← snd_eq_of_eq heq]
            exact ihIN _ _ hP
          · rename_i a L1
            refine ihLD _ _ ?_
            rw [← snd_eq_of_eq heq]
            exact ihIN _ _ hP
    · -- import_name_inner
      intro L n hP
      by_cases hs : hasSep n
      · simpa [import_name_inner, hs] using hP
      · simp only [import_name_inner, hs, Bool.false_eq_true, if_false]
        split <;> rename_i heq1
        · rename_i e L1
          rw [← snd_eq_of_eq heq1]
          exact ihLB _ _ _ hP
        · rename_i a L1
          rw [← snd_eq_of_eq heq1]
          exact ihLB _ _ _ hP
        · rename_i L1
          have hP1 : P L1.modules := by
            rw [← snd_eq_of_eq heq1]
            exact ihLB _ _ _ hP
          split <;> rename_i heq2
          · rename_i e L2
            rw [← snd_eq_of_eq heq2]
            exact ihIF _ _ _ _ hP1
          · rename_i a L2
            rw [← snd_eq_of_eq heq2]
            exact ihIF _ _ _ _ hP1
          · rename_i L2
            refine ihLB _ _ _ ?_
            rw [← snd_eq_of_eq heq2]
            exact ihIF _ _ _ _ hP1
    · -- load_builtin
      intro L s n hP
      simp only [load_builtin]
      split <;> rename_i heqm
      · rename_i m
        split <;> rename_i heq
        · rename_i e L1
          rw [← snd_eq_of_eq heq]
          exact ihLF _ _ _ _ hP
        · rename_i a L1
          rw [← snd_eq_of_eq heq]
          exact ihLF _ _ _ _ hP
      · exact hP
    · -- import_file
      intro L n sp dirs hP
      cases dirs with
      | nil => simpa [import_file] using hP
      | cons searchdir rest =>
        simp only [import_file]
        split <;> rename_i heq1
        · rename_i e L1
          rw [← snd_eq_of_eq heq1]
          exact ihLP _ _ _ hP
        · rename_i a L1
          rw [← snd_eq_of_eq heq1]
          exact ihLP _ _ _ hP
        · rename_i L1
          have hP1 : P L1.modules := by
            rw [← snd_eq_of_eq heq1]
            exact ihLP _ _ _ hP
          by_cases hd : env.fsIsdir (pathJoinAll searchdir sp)
          · simp only [hd, if_true]
            split <;> rename_i heq2
            · rename_i e L2
              rw [← snd_eq_of_eq heq2]
              exact ihCE _ _ _ hP1
            · rename_i a L2
              rw [← snd_eq_of_eq heq2]
              exact ihCE _ _ _ hP1
          · simp only [hd, Bool.false_eq_true, if_false]
            split <;> rename_i heq2
            · rename_i e L2
              rw [← snd_eq_of_eq heq2]
              exact ihLP _ _ _ hP1
            · rename_i a L2
              rw [← snd_eq_of_eq heq2]
              exact ihLP _ _ _ hP1
            · rename_i L2
              refine ihIF _ _ _ _ ?_
              rw [← snd_eq_of_eq heq2]
              exact ihLP _ _ _ hP1
    · -- load_pyi
      intro L p n hP
      simp only [load_pyi]
      split
      · exact hP
      · split
        · split <;> rename_i heq
          · rename_i e L1
            rw [← snd_eq_of_eq heq]
            exact ihLF _ _ _ _ hP
          · rename_i a L1
            rw [← snd_eq_of_eq heq]
            exact ihLF _ _ _ _ hP
        · exact hP

theorem alookup_mem {β : Type} {l : List (String × β)} {k : String} {v : β}
    (h : alookup l k = some v) : (k, v) ∈ l := by
  induction l with
  | nil => simp [alookup] at h
  | cons q t ih =>
    by_cases hq : k = q.1
    · simp only [alookup, if_pos hq] at h
      cases h
      subst hq
      exact List.mem_cons_self _ _
    · simp only [alookup, if_neg hq] at h
      exact List.mem_cons_of_mem _ (ih h)

theorem finish_ast_ok {L : Loader} {a a2 : Ast} (h : finish_ast L a = .ok a2) :
    allResolved a2 = true := by
  simp only [finish_ast] at h
  split at h
  · rename_i hc
    cases h
    simpa [VerifyLookup, allResolved] using hc.1
  · cases h

/-- A registry property preserved by dict assignment of a completed
(non-dirty, fully bound) module is preserved by the completion sweep. -/
theorem sweep_preserve (P : List (String × Module) → Prop)
    (hset2 : ∀ l k m, P l → m.dirty = false → allResolved m.ast = true →
      P (setMod l k m)) :
    ∀ ks (L : Loader), P L.modules → P ((sweepKeys ks L).2).modules := by
  intro ks
  induction ks with
  | nil => intro L hP; simpa [sweepKeys] using hP
  | cons k ks ih =>
    intro L hP
    rcases hm : alookup L.modules k with _ | m
    · simpa [sweepKeys, hm] using ih L hP
    · by_cases hd : m.dirty
      · rcases hfin : finish_ast L m.ast with e | ast2
        · simpa [sweepKeys, hm, hd, hfin] using hP
        · simp only [sweepKeys, hm, hd, hfin, if_true]
          exact ih _ (hset2 _ _ _ hP rfl (finish_ast_ok hfin))
      · simp only [sweepKeys, hm]
        rw [if_neg hd]
        exact ih L hP

/-- When the sweep over a key snapshot covering the registry succeeds, every
module of the resulting registry is completed: dirty flag cleared and every
reference bound.  Modules it skips because their dirty flag is already
cleared are covered by the registry invariant `Inv`. -/
theorem sweep_done : ∀ (ks : List String) (L : Loader) (L' : Loader),
    sweepKeys ks L = (.ok (), L') →
    NodupKeys L.modules → Inv L.modules →
    (∀ p ∈ L.modules, p.1 ∈ ks ∨ (p.2.dirty = false ∧ allResolved p.2.ast = true)) →
    ∀ p ∈ L'.modules, p.2.dirty = false ∧ allResolved p.2.ast = true := by
  intro ks
  induction ks with
  | nil =>
    intro L L' heq _ _ hcov p hp
    simp only [sweepKeys] at heq
    cases heq
    rcases hcov p hp with h | h
    · cases h
    · exact h
  | cons k ks ih =>
    intro L L' heq hnd hinv hcov
    rcases hm : alookup L.modules k with _ | m
    · simp only [sweepKeys, hm] at heq
      refine ih L L' heq hnd hinv ?_
      intro p hp
      rcases hcov p hp with h | h
      · rcases List.mem_cons.mp h with h' | h'
        · exact absurd h'.symm (alookup_eq_none_iff.mp hm p hp)
        · exact .inl h'
      · exact .inr h
    · by_cases hd : m.dirty
      · rcases hfin : finish_ast L m.ast with e | ast2
        · simp [sweepKeys, hm, hd, hfin] at heq
        · simp only [sweepKeys, hm, hd, hfin, if_true] at heq
          refine ih _ L' heq (nodupKeys_setMod hnd) ?_ ?_
          · intro p hp hpd
            rcases mem_setMod hp with rfl | hp'
            · exact finish_ast_ok hfin
            · exact hinv p hp' hpd
          · intro p hp
            rcases mem_setMod_nodup hnd hp with rfl | ⟨hp', hpk⟩
            · exact .inr ⟨rfl, finish_ast_ok hfin⟩
            · rcases hcov p hp' with h | h
              · rcases List.mem_cons.mp h with h' | h'
                · exact absurd h' hpk
                · exact .inl h'
              · exact .inr h
      · simp only [sweepKeys, hm] at heq
        rw [if_neg hd] at heq
        refine ih L L' heq hnd hinv ?_
        intro p hp
        rcases hcov p hp with h | h
        · rcases List.mem_cons.mp h with h' | h'
          · have h2 : some p.2 = some m := by
              rw [← hm, ← h']
              exact (alookup_of_mem_nodup hnd hp).symm
            have h3 : p.2 = m := Option.some_inj.mp h2
            have hdf2 : p.2.dirty = false := by
              rw [h3]
              simpa using hd
            exact .inr ⟨hdf2, hinv p hp hdf2⟩
          · exact .inl h'
        · exact .inr h

theorem done_iff {l : List (String × Module)} :
    Done l = true ↔ ∀ p ∈ l, p.2.dirty = false ∧ allResolved p.2.ast = true := by
  simp [Done, List.all_eq_true, Bool.and_eq_true, Bool.not_eq_true']

theorem fillIn_allResolved {module_map : List (String × Ast)} {a : Ast}
    (h : allResolved a = true) :
    allResolved (FillInModuleClasses module_map a) = true := by
  simp only [allResolved, FillInModuleClasses, List.all_eq_true] at *
  intro x hx
  rcases List.mem_map.mp hx with ⟨r, hr, rfl⟩
  have hrr := h r hr
  rcases halk : alookup module_map (r.module.getD "") with _ | t
  · simpa [halk] using hrr
  · by_cases hmem : r.name ∈ t.classes
    · simp [halk, hmem]
    · simpa [halk, hmem] using hrr

theorem finish_ast_ok_of_resolved {L : Loader} {a : Ast}
    (h : allResolved a = true) : ∃ a2, finish_ast L a = .ok a2 := by
  simp only [finish_ast]
  split
  · exact ⟨_, rfl⟩
  · rename_i hc
    exact absurd ⟨show VerifyLookup _ = true from fillIn_allResolved h, rfl⟩ hc

/-- On a registry whose modules are all fully bound, the completion sweep
always succeeds, and full boundness persists. -/
theorem sweep_ok_of_allResolved : ∀ (ks : List String) (L : Loader),
    (∀ p ∈ L.modules, allResolved p.2.ast = true) →
    (sweepKeys ks L).1 = .ok () ∧
      ∀ p ∈ (sweepKeys ks L).2.modules, allResolved p.2.ast = true := by
  intro ks
  induction ks with
  | nil => intro L hres; exact ⟨rfl, hres⟩
  | cons k ks ih =>
    intro L hres
    rcases hm : alookup L.modules k with _ | m
    · simpa [sweepKeys, hm] using ih L hres
    · by_cases hd : m.dirty
      · have hmem : (k, m) ∈ L.modules := alookup_mem hm
        rcases finish_ast_ok_of_resolved (L := L) (hres _ hmem) with ⟨a2, hfin⟩
        simp only [sweepKeys, hm, hd, hfin, if_true]
        refine ih _ ?_
        intro p hp
        rcases mem_setMod hp with rfl | hp'
        · exact finish_ast_ok hfin
        · exact hres p hp'
      · simp only [sweepKeys, hm]
        rw [if_neg hd]
        exact ih L hres

/-! ### Eviction on missing dependencies -/

theorem load_file_depNF (env : Env) : ∀ (fuel : Nat) (L : Loader)
    (n f : String) (a? : Option Ast) (d : String) (L' : Loader),
    load_file env fuel L n f a? = (.error (.dependencyNotFound d), L') →
    alookup L'.modules n = none := by
  intro fuel L n f a? d L' h
  cases fuel with
  | zero => simp [load_file] at h
  | succ fuel =>
    rcases hex : alookup L.modules n with _ | existing
    · simp only [load_file, hex] at h
      split at h <;> rename_i heq
      · rename_i e L2
        rw [Prod.mk.injEq] at h
        cases h.1
        rw [← h.2]
        exact alookup_delMod_self _ _
      · rename_i ast2 L2
        simp at h
    · by_cases hf : existing.filename = f <;> simp [load_file, hex, hf] at h

theorem load_pyi_depNF (env : Env) : ∀ (fuel : Nat) (L : Loader)
    (p n : String) (d : String) (L' : Loader),
    load_pyi env fuel L p n = (.error (.dependencyNotFound d), L') →
    alookup L'.modules n = none := by
  intro fuel L p n d L' h
  cases fuel with
  | zero => simp [load_pyi] at h
  | succ fuel =>
    simp only [load_pyi] at h
    split at h
    · simp at h
    · split at h
      · split at h <;> rename_i heq
        · rename_i e L1
          rw [Prod.mk.injEq] at h
          cases h.1
          exact h.2 ▸ load_file_depNF env _ _ _ _ _ _ _ heq
        · simp at h
      · simp at h

theorem create_empty_depNF (env : Env) : ∀ (fuel : Nat) (L : Loader)
    (n f : String) (d : String) (L' : Loader),
    create_empty env fuel L n f = (.error (.dependencyNotFound d), L') →
    alookup L'.modules n = none := by
  intro fuel L n f d L' h
  cases fuel with
  | zero => simp [create_empty] at h
  | succ fuel => exact load_file_depNF env _ _ _ _ _ _ _ h

theorem load_builtin_depNF (env : Env) : ∀ (fuel : Nat) (L : Loader)
    (s n : String) (d : String) (L' : Loader),
    load_builtin env fuel L s n = (.error (.dependencyNotFound d), L') →
    alookup L'.modules n = none := by
  intro fuel L s n d L' h
  cases fuel with
  | zero => simp [load_builtin] at h
  | succ fuel =>
    simp only [load_builtin] at h
    split at h
    · split at h <;> rename_i heq
      · rename_i e L1
        rw [Prod.mk.injEq] at h
        cases h.1
        exact h.2 ▸ load_file_depNF env _ _ _ _ _ _ _ heq
      · simp at h
    · simp at h

theorem import_file_depNF (env : Env) : ∀ (fuel : Nat) (dirs : List String)
    (L : Loader) (n : String) (sp : List String) (d : String) (L' : Loader),
    import_file env fuel L n sp dirs = (.error (.dependencyNotFound d), L') →
    alookup L'.modules n = none := by
  intro fuel
  induction fuel with
  | zero =>
    intro dirs L n sp d L' h
    cases dirs <;> simp [import_file] at h
  | succ fuel ih =>
    intro dirs L n sp d L' h
    cases dirs with
    | nil => simp [import_file] at h
    | cons searchdir rest =>
      simp only [import_file] at h
      split at h <;> rename_i heq1
      · rename_i e L1
        rw [Prod.mk.injEq] at h
        cases h.1
        exact h.2 ▸ load_pyi_depNF env _ _ _ _ _ _ heq1
      · simp at h
      · rename_i L1
        split at h
        · split at h <;> rename_i heq2
          · rename_i e L2
            rw [Prod.mk.injEq] at h
            cases h.1
            exact h.2 ▸ create_empty_depNF env _ _ _ _ _ _ heq2
          · simp at h
        · split at h <;> rename_i heq2
          · rename_i e L2
            rw [Prod.mk.injEq] at h
            cases h.1
            exact h.2 ▸ load_pyi_depNF env _ _ _ _ _ _ heq2
          · simp at h
          · rename_i L2
            exact ih rest _ _ _ _ _ h

theorem import_name_inner_depNF (env : Env) : ∀ (fuel : Nat) (L : Loader)
    (n : String) (d : String) (L' : Loader),
    import_name_inner env fuel L n = (.error (.dependencyNotFound d), L') →
    alookup L'.modules n = none := by
  intro fuel L n d L' h
  cases fuel with
  | zero => simp [import_name_inner] at h
  | succ fuel =>
    by_cases hs : hasSep n
    · simp [import_name_inner, hs] at h
    · simp only [import_name_inner, hs, Bool.false_eq_true, if_false] at h
      split at h <;> rename_i heq1
      · rename_i e L1
        rw [Prod.mk.injEq] at h
        cases h.1
        exact h.2 ▸ load_builtin_depNF env _ _ _ _ _ _ heq1
      · simp at h
      · rename_i L1
        split at h <;> rename_i heq2
        · rename_i e L2
          rw [Prod.mk.injEq] at h
          cases h.1
          exact h.2 ▸ import_file_depNF env _ _ _ _ _ _ _ heq2
        · simp at h
        · rename_i L2
          exact load_builtin_depNF env _ _ _ _ _ _ h

/-- The completion sweep can only fail with `InvariantViolation`. -/
theorem sweepKeys_error_invariant : ∀ (ks : List String) (LL : Loader)
    (e' : LoadError) (LL' : Loader),
    sweepKeys ks LL = (.error e', LL') → e' = .invariantViolation := by
  intro ks
  induction ks with
  | nil => intro LL e' LL' hs; simp [sweepKeys] at hs
  | cons k ks ihs =>
    intro LL e' LL' hs
    rcases hm : alookup LL.modules k with _ | m
    · simp only [sweepKeys, hm] at hs
      exact ihs _ _ _ hs
    · simp only [sweepKeys, hm] at hs
      by_cases hdirty : m.dirty = true
      · rw [if_pos hdirty] at hs
        rcases hfin : finish_ast LL m.ast with efin | a2
        · simp only [hfin, Prod.mk.injEq] at hs
          have h1 := hs.1
          injection h1 with h1
          subst h1
          simp only [finish_ast] at hfin
          split at hfin
          · cases hfin
          · injection hfin with h2
            exact h2.symm
        · simp only [hfin] at hs
          exact ihs _ _ _ hs
      · rw [if_neg hdirty] at hs
        exact ihs _ _ _ hs

/-! ### Claim theorems -/

/-- C2 counterexample: loading `M` (whose dependencies `D` and `E` are
collected in that order, `D` loadable, `E` nowhere to be found) fails with
`DependencyNotFound "E"`; `M` is indeed absent afterwards, but the registry
is *not* rolled back to exactly its pre-load state: the successfully loaded
dependency `D` remains registered.  (The source's iteration order over the
dependency set is arbitrary; the embedding's first-occurrence order realizes
this run.) -/
theorem c2_rollback_counterexample :
    (import_name envC2 10 initL "M").1 = .error (.dependencyNotFound "E") ∧
    alookup (import_name envC2 10 initL "M").2.modules "M" = none ∧
    alookup (import_name envC2 10 initL "M").2.modules "D" ≠ none ∧
    ¬ (import_name envC2 10 initL "M").2.modules = initL.modules := by
  decide

/-- C2 (amended): when a load — whether the raw `_load_file` or the public
`import_name` — fails with `DependencyNotFound`, the module being loaded is
absent from the registry afterwards, so a later import of it starts a fresh
load attempt rather than returning a cached entry.  (The registry is not
rolled back further: dependencies registered by the failing load remain.) -/
theorem c2_dep_failure_evicts (env : Env) (fuel : Nat) (L : Loader)
    (module_name : String) (d : String) (L' : Loader) :
    (∀ f a?, load_file env fuel L module_name f a? =
        (.error (.dependencyNotFound d), L') →
      alookup L'.modules module_name = none) ∧
    (import_name env fuel L module_name = (.error (.dependencyNotFound d), L') →
      alookup L'.modules module_name = none) := by
  constructor
  · intro f a? h
    exact load_file_depNF env _ _ _ _ _ _ _ h
  · intro h
    simp only [import_name] at h
    split at h <;> rename_i heq1
    · rename_i e L1
      rw [Prod.mk.injEq] at h
      cases h.1
      exact h.2 ▸ import_name_inner_depNF env _ _ _ _ _ heq1
    · rename_i r L1
      split at h <;> rename_i heq2
      · rename_i e L2
        rw [Prod.mk.injEq] at h
        cases h.1
        simp only [lookup_all_classes] at heq2
        have hsw := sweepKeys_error_invariant _ _ _ _ heq2
        simp at hsw
      · simp at h

/-- C2 witness: the amended theorem applied to the concrete missing-`E` run. -/
theorem c2_dep_failure_evicts_witness :
    alookup (import_name envC2 10 initL "M").2.modules "M" = none := by
  have h1 : (import_name envC2 10 initL "M").1 = .error (.dependencyNotFound "E") := by
    decide
  exact (c2_dep_failure_evicts envC2 10 initL "M" "E"
      (import_name envC2 10 initL "M").2).2 (by rw [← h1])

/-- C3: importing a name already present in the registry with the same source
identifier returns the identical cached tree handle, leaves the registry
unchanged (no second entry), and — since this holds for *every* environment,
in particular for every parser — performs no second parse. -/
theorem c3_cached_import_idempotent (env : Env) (fuel : Nat) (L : Loader)
    (module_name : String) (ast? : Option Ast) (m : Module)
    (hm : alookup L.modules module_name = some m) :
    load_file env (fuel+1) L module_name m.filename ast? =
      (.ok m.ast, { L with concatenated := none }) := by
  simp [load_file, hm]

/-- C3 witness: re-importing the pre-registered `typing` module. -/
theorem c3_cached_import_idempotent_witness :
    alookup initL.modules "typing" = some ⟨"typing", "pytd:typing", tAst, true⟩ ∧
    load_file envNone 1 initL "typing" "pytd:typing" none =
      (.ok tAst, { initL with concatenated := none }) := by
  constructor
  · decide
  · exact c3_cached_import_idempotent envNone 0 initL "typing" none
      ⟨"typing", "pytd:typing", tAst, true⟩ (by decide)

/-- C8: registering a name already bound to one source identifier under a
different identifier fails with `RegistrationConflict` and leaves the
registry — in particular the original entry — untouched; the operation
performs no retry (its complete effect is this returned pair). -/
theorem c8_registration_conflict (env : Env) (fuel : Nat) (L : Loader)
    (module_name filename : String) (ast? : Option Ast) (m : Module)
    (hm : alookup L.modules module_name = some m)
    (hf : ¬ m.filename = filename) :
    load_file env (fuel+1) L module_name filename ast? =
      (.error (.registrationConflict module_name), { L with concatenated := none }) := by
  simp [load_file, hm, hf]

/-- C8 witness: name `x` registered with source `foo`, re-registered with
source `bar`. -/
theorem c8_registration_conflict_witness :
    alookup regLx.modules "x" = some ⟨"x", "foo", ⟨"x", [], []⟩, true⟩ ∧
    load_file envNone 1 regLx "x" "bar" none =
      (.error (.registrationConflict "x"), { regLx with concatenated := none }) := by
  constructor
  · decide
  · exact c8_registration_conflict envNone 0 regLx "x" "bar" none
      ⟨"x", "foo", ⟨"x", [], []⟩, true⟩ (by decide) (by decide)

/-- C9: with a configured base module, relative import at level `L ≥ 1` is
exactly the normal import flow applied to the ancestor name obtained by
dropping the last `L` path components of the base (so base `a.b.c` yields
`a.b` at level 1 and `a` at level 2); without a configured base module, or
with level `< 1`, it fails with the usage error. -/
theorem c9_import_relative (env : Env) (fuel : Nat) (L : Loader) (level : Nat) :
    (∀ base, L.base_module = some base → 1 ≤ level →
      import_relative env fuel L level =
        import_name env fuel L (parentName base level)) ∧
    (L.base_module = none →
      import_relative env fuel L level = (.error .usageError, L)) ∧
    (level < 1 → import_relative env fuel L level = (.error .usageError, L)) ∧
    parentName "a.b.c" 1 = "a.b" ∧ parentName "a.b.c" 2 = "a" := by
  refine ⟨?_, ?_, ?_, by decide, by decide⟩
  · intro base hb hl
    have hnl : ¬ level < 1 := by omega
    simp [import_relative, import_name, parentName, hb, hnl]
  · intro hb
    by_cases hl : level < 1 <;> simp [import_relative, hl, hb]
  · intro hl
    simp [import_relative, hl]

/-- C9 witness: level 1 on base `a.b.c` runs the normal import flow on the
ancestor `a.b`; level 0 and a missing base are usage errors. -/
theorem c9_import_relative_witness :
    import_relative envNone 10 LbaseABC 1 =
      import_name envNone 10 LbaseABC (parentName "a.b.c" 1) ∧
    import_relative envNone 10 initL 1 = (.error .usageError, initL) ∧
    import_relative envNone 10 LbaseABC 0 = (.error .usageError, LbaseABC) := by
  refine ⟨?_, ?_, ?_⟩
  · exact (c9_import_relative envNone 10 LbaseABC 1).1 "a.b.c" (by decide) (by decide)
  · exact (c9_import_relative envNone 10 initL 1).2.1 (by decide)
  · exact (c9_import_relative envNone 10 LbaseABC 0).2.2.1 (by decide)

/-- C6 counterexample: with an explicit remap table configured (here empty,
so no probed path is present as a key) and a directory named `foo` on disk,
importing `foo` still resolves — to a synthesized empty package — because
`_import_file`'s `os.path.isdir` check probes the filesystem even in remap
mode.  The claim's "bypasses filesystem probing entirely / a path absent from
the table yields not-found" is therefore false. -/
theorem c6_remap_counterexample :
    L6.options.imports_map = some [] ∧
    (import_name envC6 10 L6 "foo").1 = .ok (some ⟨"foo", [], []⟩) ∧
    ¬ alookup (import_name envC6 10 L6 "foo").2.modules "foo" = none := by
  decide

/-- C6 (amended): with an explicit remap table configured, *file* probing is
bypassed: a probed path whose key is absent from the table yields not-found
regardless of what exists on disk, and a path can only resolve through a
present key.  (The directory-as-implicit-package check of the search loop
still probes the filesystem, which is what the counterexample exhibits.) -/
theorem c6_remap_bypasses_file_probing (env : Env) (fuel : Nat) (L : Loader)
    (path module_name : String) (im : List (String × String))
    (him : L.options.imports_map = some im) :
    (alookup im path = none →
      load_pyi env (fuel+1) L path module_name = (.ok none, L)) ∧
    (∀ a L', load_pyi env (fuel+1) L path module_name = (.ok (some a), L') →
      (alookup im path).isSome = true) := by
  constructor
  · intro h
    simp [load_pyi, him, h]
  · intro a L' h
    rcases halk : alookup im path with _ | fp
    · simp [load_pyi, him, halk] at h
    · simp [halk]

/-- C6 witness: the probed init path of `foo` is not a key of the (empty)
table, so its file probe yields not-found. -/
theorem c6_remap_bypasses_file_probing_witness :
    load_pyi envC6 1 L6 "foo/__init__" "foo" = (.ok none, L6) := by
  exact (c6_remap_bypasses_file_probing envC6 0 L6 "foo/__init__" "foo" []
    (by decide)).1 (by decide)

/-- C7 counterexample: the remap table maps the probed path `foo` to the
discard sentinel `/dev/null`, which exists on disk and is not a directory —
and resolving `foo` *loads* it (the parse of the empty file yields an empty
module, which is registered), rather than yielding "not found".  The code
comment says explicitly that `/dev/null` entries are meant to be loaded
(`exists`/`isdir` instead of `isfile`). -/
theorem c7_devnull_counterexample :
    L7.options.imports_map = some [("foo", "/dev/null")] ∧
    (import_name envC7 10 L7 "foo").1 = .ok (some ⟨"foo", [], []⟩) ∧
    ¬ alookup (import_name envC7 10 L7 "foo").2.modules "foo" = none := by
  decide

/-- C7 (amended): when the remap table maps a probed path to a location that
exists on disk and is not a directory — which is the case for the `/dev/null`
discard sentinel — resolving that path loads a module from that location
(for `/dev/null`, an empty module); the sentinel does not yield "not
found". -/
theorem c7_devnull_loads (env : Env) (fuel : Nat) (L : Loader)
    (path module_name v : String) (im : List (String × String))
    (him : L.options.imports_map = some im)
    (hv : alookup im path = some v)
    (hex : env.fsExists v = true) (hnd : env.fsIsdir v = false) :
    load_pyi env (fuel+1) L path module_name =
      (match load_file env fuel L module_name v none with
       | (.error e, L1) => (.error e, L1)
       | (.ok a, L1) => (.ok (some a), L1)) := by
  simp [load_pyi, him, hv, hex, hnd]

/-- C7 witness: the amended theorem applied to the `/dev/null` entry. -/
theorem c7_devnull_loads_witness :
    load_pyi envC7 3 L7 "foo" "foo" =
      (match load_file envC7 2 L7 "foo" "/dev/null" none with
       | (.error e, L1) => (.error e, L1)
       | (.ok a, L1) => (.ok (some a), L1)) := by
  exact c7_devnull_loads envC7 2 L7 "foo" "foo" "/dev/null" [("foo", "/dev/null")]
    (by decide) (by decide) (by decide) (by decide)

/-- C4: after any public resolution entry point (`import_name`,
`import_relative_name`, `import_relative`, `resolve_ast`) returns normally,
every module in the registry has its dirty flag cleared *and* every reference
node inside it bound — so in particular a cleared dirty flag implies full
boundness; this is exactly the registry-wide completion sweep each entry
point runs before returning its result.  The hypotheses are the registry
invariants (unique keys; cleared-implies-bound), which hold of the freshly
constructed loader and are preserved by every operation. -/
theorem c4_entry_points_sweep (env : Env) (fuel : Nat) (L : Loader)
    (hnd : NodupKeys L.modules) (hinv : Inv L.modules) :
    (∀ n r L', import_name env fuel L n = (.ok r, L') → Done L'.modules = true) ∧
    (∀ name r L', import_relative_name env fuel L name = (.ok r, L') →
      Done L'.modules = true) ∧
    (∀ level r L', import_relative env fuel L level = (.ok r, L') →
      Done L'.modules = true) ∧
    (∀ ast r L', resolve_ast env fuel L ast = (.ok r, L') → Done L'.modules = true) := by
  have hset : ∀ (l : List (String × Module)) (k : String) (m : Module),
      (NodupKeys l ∧ Inv l) → m.dirty = true → NodupKeys (setMod l k m) ∧ Inv (setMod l k m) := by
    intro l k m hP hd
    refine ⟨nodupKeys_setMod hP.1, ?_⟩
    intro p hp hpd
    rcases mem_setMod hp with rfl | hp'
    · rw [hd] at hpd; cases hpd
    · exact hP.2 p hp' hpd
  have hdel : ∀ (l l' : List (String × Module)) (k : String),
      (NodupKeys l ∧ Inv l) → (NodupKeys l' ∧ Inv l') → alookup l k = none →
      NodupKeys (delMod l' k) ∧ Inv (delMod l' k) := by
    intro l l' k _ hP' _
    exact ⟨nodupKeys_delMod hP'.1, fun p hp hpd => hP'.2 p (mem_delMod hp) hpd⟩
  have hpres := preserveAll env (fun l => NodupKeys l ∧ Inv l) hset hdel fuel
  have hsweep : ∀ (L1 L2 : Loader), NodupKeys L1.modules → Inv L1.modules →
      lookup_all_classes L1 = (.ok (), L2) → Done L2.modules = true := by
    intro L1 L2 h1 h2 heq
    simp only [lookup_all_classes] at heq
    exact done_iff.mpr
      (sweep_done _ _ _ heq h1 h2 (fun p hp => .inl (List.mem_map_of_mem _ hp)))
  refine ⟨?_, ?_, ?_, ?_⟩
  · intro n r L' h
    simp only [import_name] at h
    split at h <;> rename_i heq1
    · simp at h
    · rename_i r1 L1
      have hP1 := hpres.2.2.2.2.1 L n ⟨hnd, hinv⟩
      rw [heq1] at hP1
      split at h <;> rename_i heq2
      · simp at h
      · rename_i u L2
        rw [Prod.mk.injEq] at h
        rw [← h.2]
        exact hsweep L1 L2 hP1.1 hP1.2 heq2
  · intro name r L' h
    simp only [import_relative_name] at h
    split at h
    · simp at h
    · rename_i base hbase
      split at h <;> rename_i heq1
      · simp at h
      · rename_i r1 L1
        have hP1 := hpres.2.2.2.2.1 L (joinDots ((splitDots base).dropLast ++ [name]))
          ⟨hnd, hinv⟩
        rw [heq1] at hP1
        split at h <;> rename_i heq2
        · simp at h
        · rename_i u L2
          rw [Prod.mk.injEq] at h
          rw [← h.2]
          exact hsweep L1 L2 hP1.1 hP1.2 heq2
  · intro level r L' h
    simp only [import_relative] at h
    split at h
    · simp at h
    · split at h
      · simp at h
      · rename_i base hbase
        split at h <;> rename_i heq1
        · simp at h
        · rename_i r1 L1
          have hP1 := hpres.2.2.2.2.1 L
            (joinDots ((splitDots base).take ((splitDots base).length - level)))
            ⟨hnd, hinv⟩
          rw [heq1] at hP1
          split at h <;> rename_i heq2
          · simp at h
          · rename_i u L2
            rw [Prod.mk.injEq] at h
            rw [← h.2]
            exact hsweep L1 L2 hP1.1 hP1.2 heq2
  · intro ast r L' h
    simp only [resolve_ast] at h
    split at h <;> rename_i heq1
    · simp at h
    · rename_i ast2 L1
      have hP1 := hpres.2.2.1 L (postprocess_pyi L ast) none ⟨hnd, hinv⟩
      rw [heq1] at hP1
      split at h <;> rename_i heq2
      · simp at h
      · rename_i u L2
        split at h
        · simp at h
        · rw [Prod.mk.injEq] at h
          rw [← h.2]
          exact hsweep L1 L2 hP1.1 hP1.2 heq2

/-- C4 witness: a run of `import_name` on the fresh loader (whose registry
keys are unique and whose dirty entries are all still dirty). -/
theorem c4_entry_points_sweep_witness :
    Done (import_name envNone 3 initL "x").2.modules = true := by
  have h1 : (import_name envNone 3 initL "x").1 = .ok none := by decide
  exact (c4_entry_points_sweep envNone 3 initL (by decide) (by decide)).1 "x" none
    (import_name envNone 3 initL "x").2 (by rw [← h1])

/-- A name present in the registry stays present across every public
resolution entry point: loads only add or replace entries, eviction only
removes a name that was absent when its own load frame started, and the
completion sweep only rewrites entries in place. -/
theorem registered_key_preserved (env : Env) (fuel : Nat) (k : String) :
    (∀ L n, (alookup L.modules k).isSome = true →
      (alookup ((import_name env fuel L n).2).modules k).isSome = true) ∧
    (∀ L name, (alookup L.modules k).isSome = true →
      (alookup ((import_relative_name env fuel L name).2).modules k).isSome = true) ∧
    (∀ L level, (alookup L.modules k).isSome = true →
      (alookup ((import_relative env fuel L level).2).modules k).isSome = true) ∧
    (∀ L ast, (alookup L.modules k).isSome = true →
      (alookup ((resolve_ast env fuel L ast).2).modules k).isSome = true) := by
  have hset : ∀ (l : List (String × Module)) (k' : String) (m : Module),
      (alookup l k).isSome = true → (alookup (setMod l k' m) k).isSome = true := by
    intro l k' m hP
    by_cases hk : k = k'
    · subst hk
      rw [alookup_setMod_self]
      rfl
    · rw [alookup_setMod_ne l k' k m hk]
      exact hP
  have hdel : ∀ (l l' : List (String × Module)) (n : String),
      (alookup l k).isSome = true → (alookup l' k).isSome = true →
      alookup l n = none → (alookup (delMod l' n) k).isSome = true := by
    intro l l' n h1 h2 h0
    have hk : k ≠ n := by
      intro hkn
      subst hkn
      rw [h0] at h1
      simp at h1
    rw [alookup_delMod_ne l' n k hk]
    exact h2
  have hpres := preserveAll env (fun l => (alookup l k).isSome = true)
    (fun l k' m hP _ => hset l k' m hP) hdel fuel
  have hsweep : ∀ (L1 : Loader), (alookup L1.modules k).isSome = true →
      (alookup ((lookup_all_classes L1).2).modules k).isSome = true := by
    intro L1 h1
    simp only [lookup_all_classes]
    exact sweep_preserve _ (fun l k' m hP _ _ => hset l k' m hP) _ L1 h1
  refine ⟨?_, ?_, ?_, ?_⟩
  · intro L n hk0
    simp only [import_name]
    split <;> rename_i heq1
    · show (alookup _ k).isSome = true
      rw [← snd_eq_of_eq heq1]
      exact hpres.2.2.2.2.1 L n hk0
    · rename_i r1 L1
      have h1 : (alookup L1.modules k).isSome = true := by
        rw [← snd_eq_of_eq heq1]
        exact hpres.2.2.2.2.1 L n hk0
      split <;> rename_i heq2 <;>
        (show (alookup _ k).isSome = true
         rw [← snd_eq_of_eq heq2]
         exact hsweep L1 h1)
  · intro L name hk0
    simp only [import_relative_name]
    split
    · exact hk0
    · rename_i base hbase
      split <;> rename_i heq1
      · show (alookup _ k).isSome = true
        rw [← snd_eq_of_eq heq1]
        exact hpres.2.2.2.2.1 L _ hk0
      · rename_i r1 L1
        have h1 : (alookup L1.modules k).isSome = true := by
          rw [← snd_eq_of_eq heq1]
          exact hpres.2.2.2.2.1 L _ hk0
        split <;> rename_i heq2 <;>
          (show (alookup _ k).isSome = true
           rw [← snd_eq_of_eq heq2]
           exact hsweep L1 h1)
  · intro L level hk0
    simp only [import_relative]
    split
    · exact hk0
    · split
      · exact hk0
      · rename_i base hbase
        split <;> rename_i heq1
        · show (alookup _ k).isSome = true
          rw [← snd_eq_of_eq heq1]
          exact hpres.2.2.2.2.1 L _ hk0
        · rename_i r1 L1
          have h1 : (alookup L1.modules k).isSome = true := by
            rw [← snd_eq_of_eq heq1]
            exact hpres.2.2.2.2.1 L _ hk0
          split <;> rename_i heq2 <;>
            (show (alookup _ k).isSome = true
             rw [← snd_eq_of_eq heq2]
             exact hsweep L1 h1)
  · intro L ast hk0
    simp only [resolve_ast]
    split <;> rename_i heq1
    · show (alookup _ k).isSome = true
      rw [← snd_eq_of_eq heq1]
      exact hpres.2.2.1 L _ none hk0
    · rename_i ast2 L1
      have h1 : (alookup L1.modules k).isSome = true := by
        rw [← snd_eq_of_eq heq1]
        exact hpres.2.2.1 L _ none hk0
      split <;> rename_i heq2
      · show (alookup _ k).isSome = true
        rw [← snd_eq_of_eq heq2]
        exact hsweep L1 h1
      · rename_i u L2
        have h2 : (alookup L2.modules k).isSome = true := by
          rw [← snd_eq_of_eq heq2]
          exact hsweep L1 h1
        split <;> exact h2

/-- C10 counterexample: the fresh registry does contain the pre-built
`__builtin__` entry, yet importing `__builtin__` in an environment whose
bundled store does not serve it returns "not found" rather than the cached
tree — because `import_name` consults the search tiers (here exhaustively,
in vain) and only reaches the registry cache through `_load_file` *after* a
tier has located a source.  The claim's "returns the pre-built cached tree
without consulting any search tier" is therefore false. -/
theorem c10_reserved_counterexample :
    alookup initL.modules "__builtin__" =
      some ⟨"__builtin__", "pytd:__builtin__", bAst, true⟩ ∧
    (import_name envNone 10 initL "__builtin__").1 = .ok none := by
  decide

/-- C10 (amended): the registry contains `__builtin__` and `typing` —
pre-populated with the bootstrap builtins and typing trees — from
construction onward, and no public resolution entry point ever removes a
registered name; importing such a reserved name returns the pre-built cached
tree *provided* the bundled store locates a source for it (the store is
consulted first; the resulting `_load_file` call under the reserved
`pytd:`-prefixed filename then hits the cache). -/
theorem c10_reserved_modules (env : Env) (fuel : Nat) (L : Loader) :
    (∀ (b : Option String) (o : Options) (bi ty : Ast),
      alookup (initLoader b o bi ty).modules "__builtin__" =
        some ⟨"__builtin__", "pytd:__builtin__", bi, true⟩ ∧
      alookup (initLoader b o bi ty).modules "typing" =
        some ⟨"typing", "pytd:typing", ty, true⟩) ∧
    (∀ k n, (alookup L.modules k).isSome = true →
      (alookup ((import_name env fuel L n).2).modules k).isSome = true ∧
      (alookup ((import_relative_name env fuel L n).2).modules k).isSome = true) ∧
    (∀ k level, (alookup L.modules k).isSome = true →
      (alookup ((import_relative env fuel L level).2).modules k).isSome = true) ∧
    (∀ k ast, (alookup L.modules k).isSome = true →
      (alookup ((resolve_ast env fuel L ast).2).modules k).isSome = true) ∧
    (∀ nm t m, hasSep nm = false →
      env.predefined "builtins" nm L.options.python_version = some t →
      alookup L.modules nm = some m →
      m.filename = "pytd:" ++ nm →
      (∀ p ∈ L.modules, allResolved p.2.ast = true) →
      (import_name env (fuel+3) L nm).1 = .ok (some m.ast)) := by
  refine ⟨?_, ?_, ?_, ?_, ?_⟩
  · intro b o bi ty
    constructor
    · simp [initLoader, alookup,
        (by decide : "pytd:" ++ "__builtin__" = "pytd:__builtin__")]
    · simp [initLoader, alookup,
        (by decide : "pytd:" ++ "typing" = "pytd:typing"),
        (by decide : ¬ ("typing" : String) = "__builtin__")]
  · intro k n hk
    exact ⟨(registered_key_preserved env fuel k).1 L n hk,
      (registered_key_preserved env fuel k).2.1 L n hk⟩
  · intro k level hk
    exact (registered_key_preserved env fuel k).2.2.1 L level hk
  · intro k ast hk
    exact (registered_key_preserved env fuel k).2.2.2 L ast hk
  · intro nm t m hsep hp hm hf hres
    have hinner : import_name_inner env (fuel+3) L nm =
        (.ok (some m.ast), { L with concatenated := none }) := by
      have hlf : load_file env (fuel+1) L nm ("pytd:" ++ nm) (some t) =
          (.ok m.ast, { L with concatenated := none }) := by
        simp [load_file, hm, hf]
      have hlb : load_builtin env (fuel+2) L "builtins" nm =
          (.ok (some m.ast), { L with concatenated := none }) := by
        simp [load_builtin, hp, hlf]
      simp [import_name_inner, hsep, hlb]
    simp only [import_name, hinner]
    rcases hswp : lookup_all_classes { L with concatenated := none } with ⟨rs, L2⟩
    have hrs : rs = .ok () := by
      have h2 : (lookup_all_classes { L with concatenated := none }).1 = rs := by
        rw [hswp]
      rw [← h2]
      simp only [lookup_all_classes]
      exact (sweep_ok_of_allResolved
        ((({ L with concatenated := none } : Loader).modules).map (fun x => x.1))
        { L with concatenated := none } (fun p hp => hres p hp)).1
    simp [hrs]

/-- C10 witness: the amended theorem's cache-return clause on a store that
does serve `__builtin__`, together with the init and preservation clauses. -/
theorem c10_reserved_modules_witness :
    alookup (initLoader none defOpts bAst tAst).modules "__builtin__" =
      some ⟨"__builtin__", "pytd:__builtin__", bAst, true⟩ ∧
    (alookup ((import_name envNone 3 initL "x").2).modules "typing").isSome = true ∧
    (import_name (envBoth "__builtin__") 3 initL "__builtin__").1 = .ok (some bAst) := by
  refine ⟨?_, ?_, ?_⟩
  · exact ((c10_reserved_modules envNone 3 initL).1 none defOpts bAst tAst).1
  · exact ((c10_reserved_modules envNone 3 initL).2.1 "typing" "x" (by decide)).1
  · exact (c10_reserved_modules (envBoth "__builtin__") 0 initL).2.2.2.2
      "__builtin__" ⟨"__builtin__", ["FromBundled"], []⟩
      ⟨"__builtin__", "pytd:__builtin__", bAst, true⟩
      (by decide) (by decide) (by decide) (by decide) (by decide)

/-- C1: for every pair of distinct (non-reserved, well-formed) module names
`a` and `b` whose trees reference each other, importing `a` terminates within
a fuel bound independent of the cycle — because `a` is registered before its
dependencies are recursively loaded, the recursive load of `b` finds `a`
already registered (still dirty) and does not re-trigger a load — and both
modules end up registered with every reference node bound and their dirty
flags cleared after the completion sweep. -/
theorem c1_cyclic_load (a b : String) (f : Nat)
    (hab : ¬ a = b) (ha1 : ¬ a = "__builtin__") (ha2 : ¬ a = "typing") (ha3 : ¬ a = "")
    (hb1 : ¬ b = "__builtin__") (hb2 : ¬ b = "typing") (hb3 : ¬ b = "")
    (hsa : hasSep a = false) (hsb : hasSep b = false) :
    (import_name (cyclicEnv a b) (f + 10) initL a).1 =
      .ok (some ⟨a, ["CA"], [⟨some b, "CB", true⟩]⟩) ∧
    alookup (import_name (cyclicEnv a b) (f + 10) initL a).2.modules a =
      some ⟨a, "pytd:" ++ a, ⟨a, ["CA"], [⟨some b, "CB", true⟩]⟩, false⟩ ∧
    alookup (import_name (cyclicEnv a b) (f + 10) initL a).2.modules b =
      some ⟨b, "pytd:" ++ b, ⟨b, ["CB"], [⟨some a, "CA", true⟩]⟩, false⟩ := by
  have hab2 : ¬ b = a := fun h => hab h.symm
  have ha12 : ¬ "__builtin__" = a := fun h => ha1 h.symm
  have ha22 : ¬ "typing" = a := fun h => ha2 h.symm
  have ha32 : ¬ "" = a := fun h => ha3 h.symm
  have hb12 : ¬ "__builtin__" = b := fun h => hb1 h.symm
  have hb22 : ¬ "typing" = b := fun h => hb2 h.symm
  have hb32 : ¬ "" = b := fun h => hb3 h.symm
  refine ⟨?_, ?_, ?_⟩ <;>
    simp [import_name, import_name_inner, load_builtin, load_file, loadDeps,
      load_and_resolve_ast_dependencies, collectDependencies, postprocess_pyi,
      LookupBuiltins, LookupExternalTypes, FillInModuleClasses, InsertSignatureTemplates,
      AdjustTemplates, lookup_all_classes, sweepKeys, finish_ast, VerifyLookup,
      VerifyContainers, alookup, setMod, cyclicEnv, cycAstA, cycAstB, initL, initLoader,
      defOpts, bAst, tAst, hsa, hsb, hab, hab2, ha1, ha12, ha2, ha22, ha3, ha32,
      hb1, hb12, hb2, hb22, hb3, hb32]

/-- C1 witness: the cyclic pair `A`/`B`, at fuel 10. -/
theorem c1_cyclic_load_witness :
    (import_name (cyclicEnv "A" "B") 10 initL "A").1 =
      .ok (some ⟨"A", ["CA"], [⟨some "B", "CB", true⟩]⟩) ∧
    alookup (import_name (cyclicEnv "A" "B") 10 initL "A").2.modules "A" =
      some ⟨"A", "pytd:" ++ "A", ⟨"A", ["CA"], [⟨some "B", "CB", true⟩]⟩, false⟩ ∧
    alookup (import_name (cyclicEnv "A" "B") 10 initL "A").2.modules "B" =
      some ⟨"B", "pytd:" ++ "B", ⟨"B", ["CB"], [⟨some "A", "CA", true⟩]⟩, false⟩ := by
  exact c1_cyclic_load "A" "B" 0 (by decide) (by decide) (by decide) (by decide)
    (by decide) (by decide) (by decide) (by decide) (by decide)

/-- C5 counterexample: with the typeshed flag disabled and a name served only
by pytype's own bundled *stdlib* definitions, the spec's reading of the tier
list ("the standard-library fallback, only if enabled") yields not-found,
but the code resolves the name: `_load_builtin("stdlib", ...)` consults
pytype's own stdlib definitions unconditionally — only its typeshed
sub-store is gated by the flag. -/
theorem c5_stdlib_gating_counterexample :
    specTierResolve none none (some ⟨"x", ["SX"], []⟩) false = none ∧
    initL.options.typeshed = false ∧
    (import_name envC5stdlib 10 initL "x").1 = .ok (some ⟨"x", ["SX"], []⟩) := by
  decide

/-- C5 (amended): resolution consults the tiers in strict order — bundled
builtins definitions first, then the search-path directories in their
configured order, then the standard-library tier — and the first hit wins;
within each bundled tier, pytype's own definitions are consulted
unconditionally and the typeshed store only when enabled.  In particular a
name present both in the bundled builtins definitions and in a search-path
directory resolves to the bundled definition. -/
theorem c5_tier_order (env : Env) (fuel : Nat) (L : Loader) (n : String)
    (hsep : hasSep n = false) :
    (∀ a L1, load_builtin env fuel L "builtins" n = (.ok (some a), L1) →
      import_name_inner env (fuel+1) L n = (.ok (some a), L1)) ∧
    (∀ L1 a L2, load_builtin env fuel L "builtins" n = (.ok none, L1) →
      import_file env fuel L1 n (splitDots n) L1.options.pythonpath = (.ok (some a), L2) →
      import_name_inner env (fuel+1) L n = (.ok (some a), L2)) ∧
    (∀ L1 L2, load_builtin env fuel L "builtins" n = (.ok none, L1) →
      import_file env fuel L1 n (splitDots n) L1.options.pythonpath = (.ok none, L2) →
      import_name_inner env (fuel+1) L n = load_builtin env fuel L2 "stdlib" n) ∧
    (L.options.typeshed = false → ∀ s,
      load_builtin env (fuel+1) L s n =
        (match env.predefined s n L.options.python_version with
         | some m =>
           (match load_file env fuel L n ("pytd:" ++ n) (some m) with
            | (.error e, L1) => (.error e, L1)
            | (.ok a, L1) => (.ok (some a), L1))
         | none => (.ok none, L))) ∧
    (∀ L1 d rest a L2,
      load_pyi env fuel L1 (pathJoin (pathJoinAll d (splitDots n)) "__init__") n =
        (.ok (some a), L2) →
      import_file env (fuel+1) L1 n (splitDots n) (d :: rest) = (.ok (some a), L2)) ∧
    (∀ L1 d rest L2 L3,
      load_pyi env fuel L1 (pathJoin (pathJoinAll d (splitDots n)) "__init__") n =
        (.ok none, L2) →
      env.fsIsdir (pathJoinAll d (splitDots n)) = false →
      load_pyi env fuel L2 (pathJoinAll d (splitDots n)) n = (.ok none, L3) →
      import_file env (fuel+1) L1 n (splitDots n) (d :: rest) =
        import_file env fuel L3 n (splitDots n) rest) ∧
    (¬ n = "__builtin__" → ¬ n = "typing" →
      (import_name (envBoth n) (fuel + 4) LPath n).1 =
        .ok (some ⟨n, ["FromBundled"], []⟩)) := by
  refine ⟨?_, ?_, ?_, ?_, ?_, ?_, ?_⟩
  · intro a L1 h
    simp [import_name_inner, hsep, h]
  · intro L1 a L2 h1 h2
    simp [import_name_inner, hsep, h1, h2]
  · intro L1 L2 h1 h2
    simp [import_name_inner, hsep, h1, h2]
  · intro hts s
    rcases hp : env.predefined s n L.options.python_version with _ | m <;>
      simp [load_builtin, hp, hts]
  · intro L1 d rest a L2 h
    simp [import_file, h]
  · intro L1 d rest L2 L3 h1 hd h2
    simp [import_file, h1, hd, h2]
  · intro hn1 hn2
    have hn12 : ¬ "__builtin__" = n := fun h => hn1 h.symm
    have hn22 : ¬ "typing" = n := fun h => hn2 h.symm
    simp [import_name, import_name_inner, load_builtin, load_file,
      load_and_resolve_ast_dependencies, collectDependencies, postprocess_pyi,
      LookupBuiltins, FillInModuleClasses, InsertSignatureTemplates, AdjustTemplates,
      lookup_all_classes, sweepKeys, finish_ast, VerifyLookup, VerifyContainers,
      alookup, setMod, envBoth, LPath, initLoader, optsPath, bAst, tAst,
      hsep, hn1, hn12, hn2, hn22]

/-- C5 witness: the bundled-beats-search-path instance for the name `m`, and
the ungated own-definitions stdlib tier at the disabled-typeshed loader. -/
theorem c5_tier_order_witness :
    (import_name (envBoth "m") 4 LPath "m").1 =
      .ok (some ⟨"m", ["FromBundled"], []⟩) ∧
    load_builtin envC5stdlib 1 initL "stdlib" "x" =
      (match envC5stdlib.predefined "stdlib" "x" initL.options.python_version with
       | some m =>
         (match load_file envC5stdlib 0 initL "x" ("pytd:" ++ "x") (some m) with
          | (.error e, L1) => (.error e, L1)
          | (.ok a, L1) => (.ok (some a), L1))
       | none => (.ok none, initL)) := by
  constructor
  · exact (c5_tier_order envNone 0 initL "m" (by decide)).2.2.2.2.2.2
      (by decide) (by decide)
  · exact (c5_tier_order envC5stdlib 0 initL "x" (by decide)).2.2.2.1
      (by decide) "stdlib"

end LoadPytd
